import Mathlib

/-!
# UDS beacon framing (`core/hle/service/nwm/uds_beacon.h`)

A shallow embedding of the byte layouts declared in `uds_beacon.h`, and of the operations on
them: the tag codec, the roster cipher, the beacon composer and parser and the queue of
received packets.  The header declares `GenerateBeaconFrame`, `DecryptBeaconData` and
`GetReceivedPackets` without a body and does not declare the codec at all; these operations
are modelled from the specification, each definition saying so.

* A byte (`u8`) is a `Nat`; every serialiser reduces what it stores modulo `256`, so a
  serialised byte is always in range whatever the field holds.
* `std::array<u8, N>` is a function `Fin N → Nat`.
* A structure is serialised by concatenating the bytes of its members in declaration order.
  The structures are either declared under `#pragma pack(push, 1)` or made only of `u8`
  members, so no implicit padding exists; the `static_assert`s of the header state the sizes.
-/

namespace Service.NWM

/-! ## Storage types of `common/swap.h` and `common/common_types.h` -/

/-- Modelled from the spec: the little-endian storage types `u16_le`, `u32_le`, `u64_le` of
`common/swap.h` (a header that is not part of the sources at hand).  `leBytes n v` is the
`n`-byte little-endian image of `v`, least significant byte first, `v` reduced modulo `256 ^ n`. -/
def leBytes : Nat → Nat → List Nat
  | 0, _ => []
  | n + 1, v => v % 256 :: leBytes n (v / 256)

/-- Modelled from the spec: the big-endian storage types `u16_be`, `u64_be` of `common/swap.h`
(a header that is not part of the sources at hand): the same bytes, most significant first. -/
def beBytes (n v : Nat) : List Nat := (leBytes n v).reverse

/-- Value of a little-endian byte string (the read side of `u16_le`, `u32_le`, `u64_le`). -/
def ofLeBytes : List Nat → Nat
  | [] => 0
  | b :: bs => b + 256 * ofLeBytes bs

/-- Value of a big-endian byte string (the read side of `u16_be`, `u64_be`). -/
def ofBeBytes (bs : List Nat) : Nat := ofLeBytes bs.reverse

/-- Bytes of a `std::array<u8, N>`. -/
def arrayBytes {N : Nat} (a : Fin N → Nat) : List Nat := List.ofFn (fun i => a i % 256)

/-! ## Enumerations and constants -/

/-- The `enum class TagId : u8`. -/
inductive TagId where
  | SSID
  | SupportedRates
  | DSParameterSet
  | TrafficIndicationMap
  | CountryInformation
  | ERPInformation
  | VendorSpecific
  deriving DecidableEq, Repr

/-- Underlying `u8` value of a `TagId`. -/
def TagId.toU8 : TagId → Nat
  | .SSID => 0
  | .SupportedRates => 1
  | .DSParameterSet => 2
  | .TrafficIndicationMap => 5
  | .CountryInformation => 7
  | .ERPInformation => 42
  | .VendorSpecific => 221

/-- The `enum class NintendoTagId : u8`. -/
inductive NintendoTagId where
  | Dummy
  | NetworkInfo
  | EncryptedData0
  | EncryptedData1
  deriving DecidableEq, Repr

/-- Underlying `u8` value of a `NintendoTagId`. -/
def NintendoTagId.toU8 : NintendoTagId → Nat
  | .Dummy => 20
  | .NetworkInfo => 21
  | .EncryptedData0 => 24
  | .EncryptedData1 => 25

/-- The alias `using MacAddress = std::array<u8, 6>`. -/
abbrev MacAddress := Fin 6 → Nat

/-- The constant `constexpr u32 UDSMaxNodes = 16`. -/
def UDSMaxNodes : Nat := 16

/-- The constant `constexpr std::array<u8, 3> NintendoOUI = {0x00, 0x1F, 0x32}`. -/
def NintendoOUI : Fin 3 → Nat := ![0x00, 0x1F, 0x32]

/-- The constant `constexpr MacAddress BroadcastMac`, the 802.11 broadcast address. -/
def BroadcastMac : MacAddress := ![0xFF, 0xFF, 0xFF, 0xFF, 0xFF, 0xFF]

/-! ## Structures -/

/-- The `struct BeaconFrameHeader` (packed): `u64_le timestamp; u16_le beacon_interval;
u16_le capabilities;`. -/
structure BeaconFrameHeader where
  timestamp : Nat
  beacon_interval : Nat
  capabilities : Nat

/-- Raw bytes of a `BeaconFrameHeader`. -/
def BeaconFrameHeader.toBytes (h : BeaconFrameHeader) : List Nat :=
  leBytes 8 h.timestamp ++ leBytes 2 h.beacon_interval ++ leBytes 2 h.capabilities

/-- The `struct TagHeader`: `u8 tag_id; u8 length;`. -/
structure TagHeader where
  tag_id : Nat
  length : Nat

/-- Raw bytes of a `TagHeader`. -/
def TagHeader.toBytes (h : TagHeader) : List Nat := [h.tag_id % 256, h.length % 256]

/-- The `struct DummyTag`: `TagHeader header; std::array<u8, 3> oui; u8 oui_type;
std::array<u8, 3> data;`. -/
structure DummyTag where
  header : TagHeader
  oui : Fin 3 → Nat
  oui_type : Nat
  data : Fin 3 → Nat

/-- The constant `static constexpr u8 TagId = 20` of `DummyTag`. -/
def DummyTag.TagId : Nat := 20

/-- Raw bytes of a `DummyTag`. -/
def DummyTag.toBytes (t : DummyTag) : List Nat :=
  t.header.toBytes ++ arrayBytes t.oui ++ [t.oui_type % 256] ++ arrayBytes t.data

/-- The `struct NetworkInfoTag`: `TagHeader header; std::array<u8, 0x1F> network_info;
std::array<u8, 0x14> sha_hash; u8 appdata_size;`. -/
structure NetworkInfoTag where
  header : TagHeader
  network_info : Fin 0x1F → Nat
  sha_hash : Fin 0x14 → Nat
  appdata_size : Nat

/-- The constant `static constexpr u8 TagId = 21` of `NetworkInfoTag`. -/
def NetworkInfoTag.TagId : Nat := 21

/-- Raw bytes of a `NetworkInfoTag`. -/
def NetworkInfoTag.toBytes (t : NetworkInfoTag) : List Nat :=
  t.header.toBytes ++ arrayBytes t.network_info ++ arrayBytes t.sha_hash ++ [t.appdata_size % 256]

/-- The `struct EncryptedDataTag`: `TagHeader header; std::array<u8, 3> oui; u8 oui_type;`. -/
structure EncryptedDataTag where
  header : TagHeader
  oui : Fin 3 → Nat
  oui_type : Nat

/-- Raw bytes of an `EncryptedDataTag`. -/
def EncryptedDataTag.toBytes (t : EncryptedDataTag) : List Nat :=
  t.header.toBytes ++ arrayBytes t.oui ++ [t.oui_type % 256]

/-- The `struct BeaconDataCryptoCTR` (packed): `MacAddress host_mac; u32_le wlan_comm_id; u8 id;
INSERT_PADDING_BYTES(1); u32_le network_id;`.  The padding macro of `common/common_funcs.h`
declares an anonymous `u8` array member, kept here as the field `pad`. -/
structure BeaconDataCryptoCTR where
  host_mac : MacAddress
  wlan_comm_id : Nat
  id : Nat
  pad : Fin 1 → Nat
  network_id : Nat

/-- Raw bytes of a `BeaconDataCryptoCTR`: "the raw bytes of this structure are the CTR". -/
def BeaconDataCryptoCTR.toBytes (c : BeaconDataCryptoCTR) : List Nat :=
  arrayBytes c.host_mac ++ leBytes 4 c.wlan_comm_id ++ [c.id % 256] ++ arrayBytes c.pad
    ++ leBytes 4 c.network_id

/-- The `struct BeaconNodeInfo` (packed): `u64_be friend_code_seed; std::array<u16_be, 10> username;
u16_be network_node_id;`. -/
structure BeaconNodeInfo where
  friend_code_seed : Nat
  username : Fin 10 → Nat
  network_node_id : Nat

/-- Raw bytes of a `BeaconNodeInfo`. -/
def BeaconNodeInfo.toBytes (n : BeaconNodeInfo) : List Nat :=
  beBytes 8 n.friend_code_seed ++ (List.ofFn n.username).flatMap (beBytes 2)
    ++ beBytes 2 n.network_node_id

/-- The `struct BeaconData` (packed): `std::array<u8, 0x10> md5_hash; u16_be bitmask;`. -/
structure BeaconData where
  md5_hash : Fin 0x10 → Nat
  bitmask : Nat

/-- Raw bytes of a `BeaconData`. -/
def BeaconData.toBytes (d : BeaconData) : List Nat :=
  arrayBytes d.md5_hash ++ beBytes 2 d.bitmask

/-- The size `sizeof(TagHeader)`, by the header's `static_assert`. -/
def sizeofTagHeader : Nat := 2

/-- The size `sizeof(EncryptedDataTag)`, by the header's `static_assert`. -/
def sizeofEncryptedDataTag : Nat := 6

/-- The size `sizeof(NetworkInfoTag)`, by the header's `static_assert`. -/
def sizeofNetworkInfoTag : Nat := 54

/-- The size `sizeof(BeaconNodeInfo)`, by the header's `static_assert`. -/
def sizeofBeaconNodeInfo : Nat := 0x1E

/-- The size `sizeof(BeaconData)`, by the header's `static_assert`. -/
def sizeofBeaconData : Nat := 0x12

/-- Largest value of the `u8 length` member of `TagHeader`. -/
def maxTagLength : Nat := 2 ^ 8 - 1

/-- Payload bytes left in one `EncryptedDataTag`: the tag length counts what follows the
`TagHeader`, of which the `oui` and `oui_type` members take
`sizeof(EncryptedDataTag) - sizeof(TagHeader)` bytes. -/
def maxEncryptedPayload : Nat := maxTagLength - (sizeofEncryptedDataTag - sizeofTagHeader)

/-- Set bits among the lowest `fuel` binary digits of `n`, counted from the least significant
digit on and stopping once nothing is left. -/
def popcountAux : Nat → Nat → Nat
  | 0, _ => 0
  | fuel + 1, n => if n = 0 then 0 else n % 2 + popcountAux fuel (n / 2)

/-- Number of set bits of a natural number (the `popcount` of the node bitmask); `n` has fewer
than `n + 1` binary digits, so `n` steps see all of them. -/
def popcount (n : Nat) : Nat := popcountAux n n

/-- Reads the fields of a `BeaconData` back from the first `sizeof(BeaconData)` bytes of a
buffer; `none` when the buffer is shorter. -/
def BeaconData.ofBytes (bs : List Nat) : Option BeaconData :=
  if bs.length < sizeofBeaconData then none
  else some
    { md5_hash := fun i => bs.getD i.val 0
      bitmask := ofBeBytes ((bs.drop 16).take 2) }

/-- Reads the fields of a `BeaconNodeInfo` back from the first `sizeof(BeaconNodeInfo)` bytes
of a buffer; `none` when the buffer is shorter. -/
def BeaconNodeInfo.ofBytes (bs : List Nat) : Option BeaconNodeInfo :=
  if bs.length < sizeofBeaconNodeInfo then none
  else some
    { friend_code_seed := ofBeBytes (bs.take 8)
      username := fun i => ofBeBytes ((bs.drop (8 + 2 * i.val)).take 2)
      network_node_id := ofBeBytes ((bs.drop 28).take 2) }

/-- Modelled from the spec: the `RosterPayload` of the data model, the `BeaconData` prefix
followed by the node records back to back (`uds_beacon.h` declares the two structures, not
the code that puts them together). -/
def rosterPayload (d : BeaconData) (nodes : List BeaconNodeInfo) : List Nat :=
  d.toBytes ++ nodes.flatMap BeaconNodeInfo.toBytes

/-- All stored values of a `BeaconData` fit their member types. -/
def BeaconData.InRange (d : BeaconData) : Prop :=
  (∀ i, d.md5_hash i < 2 ^ 8) ∧ d.bitmask < 2 ^ 16

/-- All stored values of a `BeaconNodeInfo` fit their member types. -/
def BeaconNodeInfo.InRange (n : BeaconNodeInfo) : Prop :=
  n.friend_code_seed < 2 ^ 64 ∧ (∀ i, n.username i < 2 ^ 16) ∧ n.network_node_id < 2 ^ 16

/-- A sample `BeaconData`: digest bytes `0 .. 15`, nodes in slots 0, 3 and 15. -/
def sampleBeaconData : BeaconData :=
  { md5_hash := fun i => i.val, bitmask := 0x8009 }

/-- A sample `BeaconNodeInfo`. -/
def sampleNode (k : Nat) : BeaconNodeInfo :=
  { friend_code_seed := 0x0123456789ABCDEF + k
    username := fun i => 0x41 + i.val
    network_node_id := k }

/-- Sample node records for the slots of `sampleBeaconData`. -/
def sampleNodes : List BeaconNodeInfo := [sampleNode 1, sampleNode 4, sampleNode 16]

/-- A `NetworkInfoTag` with a vendor-specific header and an all-zero descriptor and digest. -/
def sampleNetworkInfoTag : NetworkInfoTag :=
  { header := { tag_id := 221, length := 52 }
    network_info := fun _ => 0
    sha_hash := fun _ => 0
    appdata_size := 0 }

/-- The vendor-tag form `{OUI, subId, payload}` applied to a `NetworkInfoTag`: the tag header,
the 3-byte vendor OUI, the 1-byte sub-id, then the descriptor, the digest and the
application-data size as payload.  This is the layout the specification describes, written
down to be compared with `NetworkInfoTag.toBytes`. -/
def NetworkInfoTag.vendorFormBytes (t : NetworkInfoTag) : List Nat :=
  t.header.toBytes ++ arrayBytes NintendoOUI ++ [NetworkInfoTag.TagId]
    ++ (arrayBytes t.network_info ++ arrayBytes t.sha_hash ++ [t.appdata_size % 256])

/-! ## Tag codec -/

/-- Modelled from the spec: the error taxonomy of the codec (no error type is declared in
`uds_beacon.h`). -/
inductive CodecError where
  | PayloadTooLarge
  | TruncatedTag
  | TruncatedFrame
  | MissingNetworkInfo
  | NetworkInfoIntegrityMismatch
  | MissingEncryptedSegment
  | MalformedRoster
  | IntegrityMismatch
  | RosterTooLarge
  deriving DecidableEq, Repr

/-- Modelled from the spec: a tag `{id, length, value}`, the `TagHeader` of the header file
followed by `length` value bytes. -/
structure Tag where
  header : TagHeader
  value : List Nat

/-- Raw bytes of a `Tag`: the header, then the value. -/
def Tag.toBytes (t : Tag) : List Nat := t.header.toBytes ++ t.value.map (· % 256)

/-- Modelled from the spec: `EncodeTag(id, value)`, whose code is not in `uds_beacon.h`; it
fails with `PayloadTooLarge` if `len(value) > 255`, the most the `u8 length` member holds. -/
def EncodeTag (id : Nat) (value : List Nat) : Except CodecError Tag :=
  if value.length > maxTagLength then .error .PayloadTooLarge
  else .ok { header := { tag_id := id, length := value.length }, value := value }

/-- Modelled from the spec: `EncodeVendorTag(vendorSubId, payload)`, whose code is not in
`uds_beacon.h`; it wraps the payload as `{OUI (3 bytes), subId (1 byte), payload}` under
`TagId::VendorSpecific` and fails under the same 255-byte ceiling. -/
def EncodeVendorTag (subId : NintendoTagId) (payload : List Nat) : Except CodecError Tag :=
  EncodeTag TagId.VendorSpecific.toU8 (arrayBytes NintendoOUI ++ [subId.toU8] ++ payload)

/-! ## Received packets -/

/-- The `enum class PacketType { Beacon, Data }` of `WifiPacket`. -/
inductive WifiPacket.PacketType where
  | Beacon
  | Data
  deriving DecidableEq, Repr

/-- The `struct WifiPacket`: `PacketType type; std::vector<u8> data;
MacAddress transmitter_address; MacAddress destination_address; u8 channel;`. -/
structure WifiPacket where
  type : WifiPacket.PacketType
  data : List Nat
  transmitter_address : MacAddress
  destination_address : MacAddress
  channel : Nat

/-- Whether a queued packet is one a call asks for: its type is the requested type and its
transmitter address is the sender. -/
def WifiPacket.isFrom (type : WifiPacket.PacketType) (sender : MacAddress) (p : WifiPacket) :
    Bool :=
  decide (p.type = type) && decide (p.transmitter_address = sender)

/-- Modelled from the spec: the body of `GetReceivedPackets(type, sender)`, which
`uds_beacon.h` only declares.  The queue of received packets is passed in, oldest packet
first; the result is the returned packets paired with the queue left behind.  The queue is
walked in capture order, every packet of the requested type and sender is moved to the result
and every other packet stays. -/
def GetReceivedPackets (type : WifiPacket.PacketType) (sender : MacAddress) :
    List WifiPacket → List WifiPacket × List WifiPacket
  | [] => ([], [])
  | p :: queue =>
    let rest := GetReceivedPackets type sender queue
    if p.isFrom type sender then (p :: rest.1, rest.2) else (rest.1, p :: rest.2)

/-! ## Roster cipher, beacon composer and parser -/

/-- Modelled from the spec: the session state a beacon is generated from, the `NetworkInfo`
argument of `GenerateBeaconFrame` and `DecryptBeaconData` (the type is declared in a header
that is not part of the sources at hand): the frame header values, the values of the standard
tags, the 31-byte network descriptor and application-data size carried by the
`NetworkInfoTag`, the addressing members that make the counter block, and the session key. -/
structure NetworkInfo where
  timestamp : Nat
  beacon_interval : Nat
  capabilities : Nat
  ssid : List Nat
  supported_rates : List Nat
  ds_parameter_set : List Nat
  country_information : List Nat
  erp_information : List Nat
  traffic_indication_map : List Nat
  network_info : Fin 0x1F → Nat
  appdata_size : Nat
  host_mac : MacAddress
  wlan_comm_id : Nat
  network_id : Nat
  key : List Nat

theorem leBytes_length (n v : Nat) : (leBytes n v).length = n := by
  induction n generalizing v with
  | zero => rfl
  | succ n ih => simp [leBytes, ih]

theorem leBytes_getElem? (n v k : Nat) (hk : k < n) :
    (leBytes n v)[k]? = some (v / 256 ^ k % 256) := by
  induction n generalizing v k with
  | zero => omega
  | succ n ih =>
    cases k with
    | zero => simp [leBytes]
    | succ k =>
      simp only [leBytes, List.getElem?_cons_succ]
      rw [ih (v / 256) k (by omega), Nat.div_div_eq_div_mul, pow_succ, Nat.mul_comm]

theorem arrayBytes_length {N : Nat} (a : Fin N → Nat) : (arrayBytes a).length = N := by
  simp [arrayBytes]

theorem arrayBytes_getElem? {N : Nat} (a : Fin N → Nat) (i : Fin N) :
    (arrayBytes a)[i.val]? = some (a i % 256) := by
  simp [arrayBytes, List.getElem?_ofFn]

/-- Lookup in a concatenation past the first part: offset `i = n + k` of `l₁ ++ l₂`, with
`l₁` of length `n`, is offset `k` of `l₂`. -/
theorem getElem?_append_at (l₁ l₂ : List Nat) (n i k : Nat) (h : l₁.length = n)
    (hi : i = n + k) : (l₁ ++ l₂)[i]? = l₂[k]? := by
  subst h hi
  rw [List.getElem?_append_right (by omega)]
  congr 1
  omega

/-- Lookup in a concatenation, inside the first part. -/
theorem getElem?_append_inside (l₁ l₂ : List Nat) (k : Nat) (h : k < l₁.length) :
    (l₁ ++ l₂)[k]? = l₁[k]? :=
  List.getElem?_append_left h

/-! ## Theorems -/

/-- C1: the counter block serialises to exactly 16 bytes, the host MAC at offsets 0..5, the
community id little-endian at 6..9, the id (segment index) at 10, the padding byte at 11 and
the network id little-endian at 12..15. -/
theorem BeaconDataCryptoCTR_layout (c : BeaconDataCryptoCTR) :
    c.toBytes.length = 16 ∧
    (∀ i : Fin 6, c.toBytes[i.val]? = some (c.host_mac i % 256)) ∧
    (∀ k : Fin 4, c.toBytes[6 + k.val]? = some (c.wlan_comm_id / 256 ^ k.val % 256)) ∧
    c.toBytes[10]? = some (c.id % 256) ∧
    c.toBytes[11]? = some (c.pad 0 % 256) ∧
    (∀ k : Fin 4, c.toBytes[12 + k.val]? = some (c.network_id / 256 ^ k.val % 256)) := by
  have hm := arrayBytes_length c.host_mac
  have hp := arrayBytes_length c.pad
  have hc := leBytes_length 4 c.wlan_comm_id
  have hn := leBytes_length 4 c.network_id
  simp only [BeaconDataCryptoCTR.toBytes, List.append_assoc]
  refine ⟨?_, ?_, ?_, ?_, ?_, ?_⟩
  · simp [hm, hp, hc, hn]
  · intro i
    rw [getElem?_append_inside _ _ _ (by omega), arrayBytes_getElem?]
  · intro k
    rw [getElem?_append_at _ _ 6 _ k.val hm rfl, getElem?_append_inside _ _ _ (by omega),
      leBytes_getElem? _ _ _ k.isLt]
  · rw [getElem?_append_at _ _ 6 _ 4 hm rfl, getElem?_append_at _ _ 4 _ 0 hc rfl]
    rfl
  · rw [getElem?_append_at _ _ 6 _ 5 hm rfl, getElem?_append_at _ _ 4 _ 1 hc rfl,
      getElem?_append_at [c.id % 256] _ 1 _ 0 rfl rfl, getElem?_append_inside _ _ _ (by omega)]
    exact arrayBytes_getElem? c.pad 0
  · intro k
    rw [getElem?_append_at _ _ 6 _ (6 + k.val) hm (by omega),
      getElem?_append_at _ _ 4 _ (2 + k.val) hc (by omega),
      getElem?_append_at [c.id % 256] _ 1 _ (1 + k.val) rfl (by omega),
      getElem?_append_at _ _ 1 _ k.val hp (by omega),
      leBytes_getElem? _ _ _ k.isLt]

/-- C2: the counter blocks built with id (segment index) 0 and 1 from the same other fields
are two different 16-byte values that differ only in the byte at offset 10. -/
theorem BeaconDataCryptoCTR_segments_differ (mac : MacAddress) (comm net : Nat)
    (pad : Fin 1 → Nat) :
    (BeaconDataCryptoCTR.toBytes ⟨mac, comm, 0, pad, net⟩).length = 16 ∧
    (BeaconDataCryptoCTR.toBytes ⟨mac, comm, 1, pad, net⟩).length = 16 ∧
    BeaconDataCryptoCTR.toBytes ⟨mac, comm, 0, pad, net⟩
      ≠ BeaconDataCryptoCTR.toBytes ⟨mac, comm, 1, pad, net⟩ ∧
    (BeaconDataCryptoCTR.toBytes ⟨mac, comm, 0, pad, net⟩)[10]? = some 0 ∧
    (BeaconDataCryptoCTR.toBytes ⟨mac, comm, 1, pad, net⟩)[10]? = some 1 ∧
    (∀ i : Nat, i ≠ 10 →
      (BeaconDataCryptoCTR.toBytes ⟨mac, comm, 0, pad, net⟩)[i]?
        = (BeaconDataCryptoCTR.toBytes ⟨mac, comm, 1, pad, net⟩)[i]?) := by
  have hm := arrayBytes_length mac
  have hp := arrayBytes_length pad
  have hc := leBytes_length 4 comm
  have hn := leBytes_length 4 net
  have h10 : ∀ x : Nat, (BeaconDataCryptoCTR.toBytes ⟨mac, comm, x, pad, net⟩)[10]?
      = some (x % 256) := by
    intro x
    simp only [BeaconDataCryptoCTR.toBytes, List.append_assoc]
    rw [getElem?_append_at _ _ 6 _ 4 hm rfl, getElem?_append_at _ _ 4 _ 0 hc rfl]
    rfl
  have hset : BeaconDataCryptoCTR.toBytes ⟨mac, comm, 1, pad, net⟩
      = (BeaconDataCryptoCTR.toBytes ⟨mac, comm, 0, pad, net⟩).set 10 1 := by
    simp only [BeaconDataCryptoCTR.toBytes, List.append_assoc]
    rw [List.set_append_right _ _ (by omega), List.set_append_right _ _ (by omega)]
    simp [hm, hc]
  refine ⟨?_, ?_, ?_, h10 0, h10 1, ?_⟩
  · simp [BeaconDataCryptoCTR.toBytes, hm, hp, hc, hn]
  · simp [BeaconDataCryptoCTR.toBytes, hm, hp, hc, hn]
  · intro h
    have h0 := h10 0
    rw [h, h10 1] at h0
    simp at h0
  · intro i hi
    rw [hset, List.getElem?_set_ne (Ne.symm hi)]

/-- C6: the beacon frame header serialises to exactly 12 bytes, the timestamp little-endian at
offsets 0..7, the beacon interval little-endian at 8..9 and the capabilities little-endian at
10..11. -/
theorem BeaconFrameHeader_layout (h : BeaconFrameHeader) :
    h.toBytes.length = 12 ∧
    (∀ k : Fin 8, h.toBytes[k.val]? = some (h.timestamp / 256 ^ k.val % 256)) ∧
    (∀ k : Fin 2, h.toBytes[8 + k.val]? = some (h.beacon_interval / 256 ^ k.val % 256)) ∧
    (∀ k : Fin 2, h.toBytes[10 + k.val]? = some (h.capabilities / 256 ^ k.val % 256)) := by
  have ht := leBytes_length 8 h.timestamp
  have hb := leBytes_length 2 h.beacon_interval
  have hc := leBytes_length 2 h.capabilities
  simp only [BeaconFrameHeader.toBytes, List.append_assoc]
  refine ⟨?_, ?_, ?_, ?_⟩
  · simp [ht, hb, hc]
  · intro k
    rw [getElem?_append_inside _ _ _ (by omega), leBytes_getElem? _ _ _ k.isLt]
  · intro k
    rw [getElem?_append_at _ _ 8 _ k.val ht rfl, getElem?_append_inside _ _ _ (by omega),
      leBytes_getElem? _ _ _ k.isLt]
  · intro k
    rw [getElem?_append_at _ _ 8 _ (2 + k.val) ht (by omega),
      getElem?_append_at _ _ 2 _ k.val hb (by omega), leBytes_getElem? _ _ _ k.isLt]

/-- C10: the `TagId` constants of `DummyTag` and `NetworkInfoTag` are the values of
`NintendoTagId::Dummy` (20) and `NintendoTagId::NetworkInfo` (21); the four `NintendoTagId`
values are pairwise distinct bytes, and so are the seven `TagId` values. -/
theorem tag_id_constants_consistent :
    DummyTag.TagId = NintendoTagId.Dummy.toU8 ∧ NintendoTagId.Dummy.toU8 = 20 ∧
    NetworkInfoTag.TagId = NintendoTagId.NetworkInfo.toU8 ∧
    NintendoTagId.NetworkInfo.toU8 = 21 ∧
    Function.Injective NintendoTagId.toU8 ∧ (∀ t : NintendoTagId, t.toU8 < 2 ^ 8) ∧
    Function.Injective TagId.toU8 ∧ (∀ t : TagId, t.toU8 < 2 ^ 8) := by
  refine ⟨rfl, rfl, rfl, rfl, ?_, ?_, ?_, ?_⟩
  · intro a b h
    cases a <;> cases b <;> first | rfl | (simp [NintendoTagId.toU8] at h)
  · intro t
    cases t <;> simp [NintendoTagId.toU8]
  · intro a b h
    cases a <;> cases b <;> first | rfl | (simp [TagId.toU8] at h)
  · intro t
    cases t <;> simp [TagId.toU8]

/-- A number below `2 ^ k` has at most `k` set bits, however many digits are looked at. -/
theorem popcountAux_le (k fuel n : Nat) (h : n < 2 ^ k) : popcountAux fuel n ≤ k := by
  induction k generalizing fuel n with
  | zero =>
    have hn : n = 0 := by simpa using h
    subst hn
    cases fuel <;> simp [popcountAux]
  | succ k ih =>
    cases fuel with
    | zero => simp [popcountAux]
    | succ fuel =>
      simp only [popcountAux]
      split
      · omega
      · have h2 : n / 2 < 2 ^ k := by
          rw [pow_succ] at h
          omega
        have := ih fuel (n / 2) h2
        omega

theorem popcount_le (k n : Nat) (h : n < 2 ^ k) : popcount n ≤ k :=
  popcountAux_le k n n h

theorem popcount_ones : popcount (2 ^ 16 - 1) = 16 := by decide

theorem beBytes_length (n v : Nat) : (beBytes n v).length = n := by
  simp [beBytes, leBytes_length]

theorem BeaconData_toBytes_length (d : BeaconData) : d.toBytes.length = 18 := by
  simp [BeaconData.toBytes, arrayBytes_length, beBytes_length]

theorem flatMap_length_const {α : Type} (f : α → List Nat) (c : Nat) (l : List α)
    (h : ∀ a, (f a).length = c) : (l.flatMap f).length = c * l.length := by
  induction l with
  | nil => simp
  | cons a l ih => simp [List.flatMap_cons, h a, ih, Nat.mul_succ, Nat.add_comm]

theorem BeaconNodeInfo_toBytes_length (n : BeaconNodeInfo) : n.toBytes.length = 30 := by
  simp only [BeaconNodeInfo.toBytes, List.length_append, beBytes_length]
  rw [flatMap_length_const (beBytes 2) 2 _ (fun a => beBytes_length 2 a)]
  simp

theorem rosterPayload_length (d : BeaconData) (nodes : List BeaconNodeInfo) :
    (rosterPayload d nodes).length = 18 + 30 * nodes.length := by
  simp only [rosterPayload, List.length_append, BeaconData_toBytes_length]
  rw [flatMap_length_const _ 30 _ BeaconNodeInfo_toBytes_length]

/-- C3: for a 16-bit bitmask the roster payload, `sizeof(BeaconData)` plus
`sizeof(BeaconNodeInfo)` for every set bit, is `18 + 30 * popcount bitmask` bytes long, which is
at most `2 * 251 = 502`, so what is left after a first segment of 251 bytes fits a second one;
with all 16 bits set the length is 498, more than the 255 bytes one tag can carry. -/
theorem roster_payload_fits_two_segments (d : BeaconData) (nodes : List BeaconNodeInfo)
    (hb : d.bitmask < 2 ^ 16) (hn : nodes.length = popcount d.bitmask) :
    (rosterPayload d nodes).length
      = sizeofBeaconData + popcount d.bitmask * sizeofBeaconNodeInfo ∧
    sizeofBeaconData + popcount d.bitmask * sizeofBeaconNodeInfo
      = 18 + 30 * popcount d.bitmask ∧
    popcount d.bitmask ≤ UDSMaxNodes ∧
    maxEncryptedPayload = 251 ∧
    sizeofBeaconData + popcount d.bitmask * sizeofBeaconNodeInfo ≤ 2 * maxEncryptedPayload ∧
    (rosterPayload d nodes).length - maxEncryptedPayload ≤ maxEncryptedPayload ∧
    popcount (2 ^ 16 - 1) = UDSMaxNodes ∧
    sizeofBeaconData + UDSMaxNodes * sizeofBeaconNodeInfo = 498 ∧
    maxTagLength = 255 ∧
    maxTagLength < sizeofBeaconData + UDSMaxNodes * sizeofBeaconNodeInfo := by
  have hp := popcount_le 16 d.bitmask hb
  have hl := rosterPayload_length d nodes
  have ho := popcount_ones
  rw [hn] at hl
  refine ⟨?_, ?_, hp, ?_, ?_, ?_, ho, ?_, ?_, ?_⟩ <;>
    simp only [sizeofBeaconData, sizeofBeaconNodeInfo, UDSMaxNodes, maxEncryptedPayload,
      maxTagLength, sizeofEncryptedDataTag, sizeofTagHeader] <;> omega

theorem ofLeBytes_leBytes (n v : Nat) : ofLeBytes (leBytes n v) = v % 256 ^ n := by
  induction n generalizing v with
  | zero => simp [leBytes, ofLeBytes, Nat.mod_one]
  | succ n ih => rw [leBytes, ofLeBytes, ih, Nat.pow_succ, Nat.mul_comm (256 ^ n) 256, Nat.mod_mul]

theorem ofBeBytes_beBytes (n v : Nat) : ofBeBytes (beBytes n v) = v % 256 ^ n := by
  simp [ofBeBytes, beBytes, ofLeBytes_leBytes]

theorem beBytes_getElem? (n v k : Nat) (hk : k < n) :
    (beBytes n v)[k]? = some (v / 256 ^ (n - 1 - k) % 256) := by
  unfold beBytes
  rw [List.getElem?_reverse (by rw [leBytes_length]; exact hk), leBytes_length,
    leBytes_getElem? _ _ _ (by omega)]

/-- In a concatenation of chunks of one size `c`, chunk `j` occupies offsets `c * j` to
`c * j + c`. -/
theorem flatMap_chunk {α : Type} (f : α → List Nat) (c : Nat) (h : ∀ a, (f a).length = c)
    (l : List α) (rest : List Nat) (j : Nat) (hj : j < l.length) :
    (l.flatMap f ++ rest).drop (c * j)
      = f (l.get ⟨j, hj⟩) ++ ((l.drop (j + 1)).flatMap f ++ rest) := by
  induction l generalizing j with
  | nil => simp at hj
  | cons a l ih =>
    cases j with
    | zero => simp [List.flatMap_cons]
    | succ j =>
      have hj2 : j < l.length := by simpa using hj
      have hsplit : c * (j + 1) = (f a).length + c * j := by rw [h a, Nat.mul_succ]; omega
      rw [List.flatMap_cons, List.append_assoc, hsplit, List.drop_append, ih j hj2]
      simp

theorem getElem?_of_drop (L chunk tail : List Nat) (o i : Nat)
    (h : L.drop o = chunk ++ tail) (hi : i < chunk.length) : L[o + i]? = chunk[i]? := by
  rw [← List.getElem?_drop, h, List.getElem?_append_left hi]

theorem drop_append_len (l₁ l₂ : List Nat) (n : Nat) (h : l₁.length = n) :
    (l₁ ++ l₂).drop n = l₂ := by
  subst h; simp

theorem take_append_len (l₁ l₂ : List Nat) (n : Nat) (h : l₁.length = n) :
    (l₁ ++ l₂).take n = l₁ := by
  subst h; simp

theorem beBytes_two (v : Nat) : beBytes 2 v = [v / 256 % 256, v % 256] := by
  simp [beBytes, leBytes]

/-- Offsets of the members inside the bytes of a `BeaconData`. -/
theorem BeaconData_bytes (d : BeaconData) (hd : d.InRange) :
    (∀ i : Fin 16, d.toBytes[i.val]? = some (d.md5_hash i)) ∧
    d.toBytes[16]? = some (d.bitmask / 256) ∧ d.toBytes[17]? = some (d.bitmask % 256) := by
  obtain ⟨hm, hb⟩ := hd
  have hl := arrayBytes_length d.md5_hash
  have hdiv : d.bitmask / 256 % 256 = d.bitmask / 256 := Nat.mod_eq_of_lt (by omega)
  simp only [BeaconData.toBytes]
  refine ⟨?_, ?_, ?_⟩
  · intro i
    rw [getElem?_append_inside _ _ _ (by omega), arrayBytes_getElem?,
      Nat.mod_eq_of_lt (show d.md5_hash i < 256 from hm i)]
  · rw [getElem?_append_at _ _ 16 _ 0 hl rfl, beBytes_two, hdiv]
    rfl
  · rw [getElem?_append_at _ _ 16 _ 1 hl rfl, beBytes_two]
    rfl

/-- Reading a `BeaconData` back from its bytes, whatever follows them. -/
theorem BeaconData_ofBytes_toBytes (d : BeaconData) (hd : d.InRange) (rest : List Nat) :
    BeaconData.ofBytes (d.toBytes ++ rest) = some d := by
  have hl := arrayBytes_length d.md5_hash
  have hlen := BeaconData_toBytes_length d
  have hb := BeaconData_bytes d hd
  unfold BeaconData.ofBytes
  rw [if_neg (by simp [sizeofBeaconData, hlen])]
  congr 1
  cases d with
  | mk md5 bm =>
    simp only [BeaconData.mk.injEq]
    constructor
    · funext i
      rw [List.getD_eq_getElem?_getD, getElem?_append_inside _ _ _ (by omega), hb.1 i]
      rfl
    · simp only [BeaconData.toBytes, List.append_assoc]
      rw [drop_append_len _ _ 16 hl, take_append_len _ _ 2 (beBytes_length 2 bm),
        ofBeBytes_beBytes]
      exact Nat.mod_eq_of_lt hd.2

/-- Inside the `username` bytes, code unit `j` starts at offset `2 * j`. -/
theorem username_drop (u : Fin 10 → Nat) (rest : List Nat) (j : Fin 10) :
    ∃ tail, ((List.ofFn u).flatMap (beBytes 2) ++ rest).drop (2 * j.val)
      = beBytes 2 (u j) ++ tail := by
  have hj : j.val < (List.ofFn u).length := by simp
  refine ⟨((List.ofFn u).drop (j.val + 1)).flatMap (beBytes 2) ++ rest, ?_⟩
  rw [flatMap_chunk (beBytes 2) 2 (fun a => beBytes_length 2 a) (List.ofFn u) rest j.val hj,
    List.get_ofFn]
  rfl

theorem username_length (u : Fin 10 → Nat) :
    ((List.ofFn u).flatMap (beBytes 2)).length = 20 := by
  rw [flatMap_length_const (beBytes 2) 2 _ (fun a => beBytes_length 2 a)]
  simp

/-- Offsets of the members inside the bytes of a `BeaconNodeInfo`. -/
theorem BeaconNodeInfo_bytes (n : BeaconNodeInfo) (hn : n.InRange) :
    (∀ b : Fin 8, n.toBytes[b.val]? = some (n.friend_code_seed / 256 ^ (7 - b.val) % 256)) ∧
    (∀ j : Fin 10, n.toBytes[8 + 2 * j.val]? = some (n.username j / 256) ∧
      n.toBytes[8 + 2 * j.val + 1]? = some (n.username j % 256)) ∧
    n.toBytes[28]? = some (n.network_node_id / 256) ∧
    n.toBytes[29]? = some (n.network_node_id % 256) := by
  obtain ⟨_, hu, hi⟩ := hn
  have hs := beBytes_length 8 n.friend_code_seed
  have hul := username_length n.username
  have hdiv : n.network_node_id / 256 % 256 = n.network_node_id / 256 :=
    Nat.mod_eq_of_lt (by omega)
  simp only [BeaconNodeInfo.toBytes]
  refine ⟨?_, ?_, ?_, ?_⟩
  · intro b
    rw [List.append_assoc, getElem?_append_inside _ _ _ (by omega),
      beBytes_getElem? _ _ _ b.isLt]
  · intro j
    obtain ⟨tail, ht⟩ := username_drop n.username (beBytes 2 n.network_node_id) j
    have hju := hu j
    have hdivu : n.username j / 256 % 256 = n.username j / 256 :=
      Nat.mod_eq_of_lt (by omega)
    have h0 := getElem?_of_drop _ _ _ _ 0 ht (by simp [beBytes_length])
    have h1 := getElem?_of_drop _ _ _ _ 1 ht (by simp [beBytes_length])
    rw [beBytes_two (n.username j), hdivu] at h0 h1
    constructor
    · rw [List.append_assoc, getElem?_append_at _ _ 8 _ (2 * j.val + 0) hs (by omega), h0]
      rfl
    · rw [List.append_assoc, getElem?_append_at _ _ 8 _ (2 * j.val + 1) hs (by omega), h1]
      rfl
  · rw [getElem?_append_at _ _ 28 _ 0 (by rw [List.length_append, hs, hul]) rfl, beBytes_two, hdiv]
    rfl
  · rw [getElem?_append_at _ _ 28 _ 1 (by rw [List.length_append, hs, hul]) rfl, beBytes_two]
    rfl

/-- Reading a `BeaconNodeInfo` back from its bytes, whatever follows them. -/
theorem BeaconNodeInfo_ofBytes_toBytes (n : BeaconNodeInfo) (hn : n.InRange)
    (rest : List Nat) : BeaconNodeInfo.ofBytes (n.toBytes ++ rest) = some n := by
  have hlen := BeaconNodeInfo_toBytes_length n
  unfold BeaconNodeInfo.ofBytes
  rw [if_neg (by simp [sizeofBeaconNodeInfo, hlen])]
  congr 1
  cases n with
  | mk seed u id =>
    obtain ⟨hseed, hu, hi⟩ := hn
    have hs := beBytes_length 8 seed
    have hul := username_length u
    simp only [BeaconNodeInfo.mk.injEq, BeaconNodeInfo.toBytes, List.append_assoc]
    refine ⟨?_, ?_, ?_⟩
    · rw [take_append_len _ _ 8 hs, ofBeBytes_beBytes]
      exact Nat.mod_eq_of_lt hseed
    · funext j
      obtain ⟨tail, ht⟩ := username_drop u (beBytes 2 id ++ rest) j
      rw [← List.drop_drop, drop_append_len _ _ 8 hs, ht,
        take_append_len _ _ 2 (beBytes_length 2 _), ofBeBytes_beBytes]
      exact Nat.mod_eq_of_lt (hu j)
    · rw [← List.append_assoc, drop_append_len _ _ 28 (by rw [List.length_append, hs, hul]),
        take_append_len _ _ 2 (beBytes_length 2 _), ofBeBytes_beBytes]
      exact Nat.mod_eq_of_lt hi

/-- In the roster payload, record `k` starts at offset `18 + 30 * k`. -/
theorem rosterPayload_drop (d : BeaconData) (nodes : List BeaconNodeInfo) (k : Nat)
    (hk : k < nodes.length) :
    (rosterPayload d nodes).drop (18 + 30 * k)
      = (nodes.get ⟨k, hk⟩).toBytes
        ++ ((nodes.drop (k + 1)).flatMap BeaconNodeInfo.toBytes ++ []) := by
  have h := flatMap_chunk BeaconNodeInfo.toBytes 30 BeaconNodeInfo_toBytes_length nodes [] k hk
  rw [← h, rosterPayload, ← List.drop_drop,
    drop_append_len _ _ 18 (BeaconData_toBytes_length d),
    List.append_nil]

/-- C3 at a sample roster: three nodes, in slots 0, 3 and 15. -/
theorem roster_payload_fits_two_segments_witness :
    sampleBeaconData.bitmask < 2 ^ 16 ∧
    sampleNodes.length = popcount sampleBeaconData.bitmask ∧
    (rosterPayload sampleBeaconData sampleNodes).length = 108 ∧
    (rosterPayload sampleBeaconData sampleNodes).length - maxEncryptedPayload
      ≤ maxEncryptedPayload :=
  have hb : sampleBeaconData.bitmask < 2 ^ 16 := by decide
  have hn : sampleNodes.length = popcount sampleBeaconData.bitmask := by decide
  have h := roster_payload_fits_two_segments sampleBeaconData sampleNodes hb hn
  ⟨hb, hn, by rw [h.1, ← hn]; rfl, h.2.2.2.2.2.1⟩

/-- C5: the roster payload has no implicit padding: an 18-byte prefix (digest at offsets
0..15, bitmask big-endian at 16..17) then one 30-byte record per node, record `k` at offset
`18 + 30 * k` (owner identifier big-endian at 0..7, ten display-name code units big-endian at
8..27, slot id big-endian at 28..29); reading the fields back from these bytes returns the
values that were stored. -/
theorem roster_payload_layout_roundtrip (d : BeaconData) (nodes : List BeaconNodeInfo)
    (hd : d.InRange) (hn : ∀ n ∈ nodes, n.InRange) :
    d.toBytes.length = 18 ∧ (∀ n ∈ nodes, n.toBytes.length = 30) ∧
    (rosterPayload d nodes).length = 18 + 30 * nodes.length ∧
    (∀ i : Fin 16, (rosterPayload d nodes)[i.val]? = some (d.md5_hash i)) ∧
    (rosterPayload d nodes)[16]? = some (d.bitmask / 256) ∧
    (rosterPayload d nodes)[17]? = some (d.bitmask % 256) ∧
    BeaconData.ofBytes (rosterPayload d nodes) = some d ∧
    (∀ (k : Nat) (hk : k < nodes.length),
      (∀ b : Fin 8, (rosterPayload d nodes)[18 + 30 * k + b.val]?
        = some ((nodes.get ⟨k, hk⟩).friend_code_seed / 256 ^ (7 - b.val) % 256)) ∧
      (∀ j : Fin 10,
        (rosterPayload d nodes)[18 + 30 * k + (8 + 2 * j.val)]?
          = some ((nodes.get ⟨k, hk⟩).username j / 256) ∧
        (rosterPayload d nodes)[18 + 30 * k + (8 + 2 * j.val + 1)]?
          = some ((nodes.get ⟨k, hk⟩).username j % 256)) ∧
      (rosterPayload d nodes)[18 + 30 * k + 28]?
        = some ((nodes.get ⟨k, hk⟩).network_node_id / 256) ∧
      (rosterPayload d nodes)[18 + 30 * k + 29]?
        = some ((nodes.get ⟨k, hk⟩).network_node_id % 256) ∧
      BeaconNodeInfo.ofBytes ((rosterPayload d nodes).drop (18 + 30 * k))
        = some (nodes.get ⟨k, hk⟩)) := by
  have hdl := BeaconData_toBytes_length d
  have hdb := BeaconData_bytes d hd
  refine ⟨hdl, fun n _ => BeaconNodeInfo_toBytes_length n, rosterPayload_length d nodes,
    ?_, ?_, ?_, ?_, ?_⟩
  · intro i
    rw [rosterPayload, getElem?_append_inside _ _ _ (by omega)]
    exact hdb.1 i
  · rw [rosterPayload, getElem?_append_inside _ _ _ (by omega)]
    exact hdb.2.1
  · rw [rosterPayload, getElem?_append_inside _ _ _ (by omega)]
    exact hdb.2.2
  · exact BeaconData_ofBytes_toBytes d hd _
  · intro k hk
    have hin := hn _ (List.get_mem nodes k hk)
    have hdrop := rosterPayload_drop d nodes k hk
    have hnb := BeaconNodeInfo_bytes _ hin
    have hnl := BeaconNodeInfo_toBytes_length (nodes.get ⟨k, hk⟩)
    refine ⟨?_, ?_, ?_, ?_, ?_⟩
    · intro b
      rw [getElem?_of_drop _ _ _ _ _ hdrop (by omega)]
      exact hnb.1 b
    · intro j
      constructor
      · rw [getElem?_of_drop _ _ _ _ _ hdrop (by omega)]
        exact (hnb.2.1 j).1
      · rw [getElem?_of_drop _ _ _ _ _ hdrop (by omega)]
        exact (hnb.2.1 j).2
    · rw [getElem?_of_drop _ _ _ _ _ hdrop (by omega)]
      exact hnb.2.2.1
    · rw [getElem?_of_drop _ _ _ _ _ hdrop (by omega)]
      exact hnb.2.2.2
    · rw [hdrop]
      exact BeaconNodeInfo_ofBytes_toBytes _ hin _

theorem sampleBeaconData_inRange : sampleBeaconData.InRange := by
  refine ⟨?_, by decide⟩
  intro i
  have := i.isLt
  simp only [sampleBeaconData]
  omega

theorem sampleNodes_inRange : ∀ n ∈ sampleNodes, n.InRange := by
  intro n hn
  simp only [sampleNodes, List.mem_cons, List.mem_singleton, List.not_mem_nil, or_false] at hn
  have hu : ∀ (k : Nat) (i : Fin 10), (sampleNode k).username i < 2 ^ 16 := by
    intro k i
    have hi := i.isLt
    simp only [sampleNode]
    omega
  have hr : ∀ k : Nat, k ≤ 16 → (sampleNode k).InRange := by
    intro k hk
    refine ⟨?_, hu k, ?_⟩
    · simp only [sampleNode]
      omega
    · simp only [sampleNode]
      omega
  rcases hn with h | h | h
  · rw [h]; exact hr 1 (by omega)
  · rw [h]; exact hr 4 (by omega)
  · rw [h]; exact hr 16 (by omega)

/-- C5 at a sample roster: the prefix and three records decode to what was stored. -/
theorem roster_payload_layout_roundtrip_witness :
    sampleBeaconData.InRange ∧ (∀ n ∈ sampleNodes, n.InRange) ∧
    (rosterPayload sampleBeaconData sampleNodes).length = 18 + 30 * 3 ∧
    BeaconData.ofBytes (rosterPayload sampleBeaconData sampleNodes) = some sampleBeaconData ∧
    BeaconNodeInfo.ofBytes ((rosterPayload sampleBeaconData sampleNodes).drop (18 + 30 * 2))
      = some (sampleNode 16) :=
  have h := roster_payload_layout_roundtrip sampleBeaconData sampleNodes
    sampleBeaconData_inRange sampleNodes_inRange
  ⟨sampleBeaconData_inRange, sampleNodes_inRange, h.2.2.1, h.2.2.2.2.2.2.1,
    (h.2.2.2.2.2.2.2 2 (by decide)).2.2.2.2⟩

theorem TagHeader_toBytes_length (h : TagHeader) : h.toBytes.length = 2 := rfl

/-- C7, as stated, fails: the bytes of a `NetworkInfoTag` are not the vendor-tag form.  For
the sample tag the four bytes after the header are the first descriptor bytes, not the OUI
and the sub-id, and the tag is 54 bytes long where the vendor form has 58. -/
theorem NetworkInfoTag_not_vendor_form :
    sampleNetworkInfoTag.toBytes ≠ sampleNetworkInfoTag.vendorFormBytes ∧
    sampleNetworkInfoTag.toBytes.length = 54 ∧
    sampleNetworkInfoTag.vendorFormBytes.length = 58 ∧
    (sampleNetworkInfoTag.toBytes.drop 2).take 4 = [0, 0, 0, 0] ∧
    (sampleNetworkInfoTag.vendorFormBytes.drop 2).take 4 = [0x00, 0x1F, 0x32, 21] := by
  have h1 : sampleNetworkInfoTag.toBytes.length = 54 := by
    simp [NetworkInfoTag.toBytes, arrayBytes_length, TagHeader_toBytes_length]
  have h2 : sampleNetworkInfoTag.vendorFormBytes.length = 58 := by
    simp [NetworkInfoTag.vendorFormBytes, arrayBytes_length, TagHeader_toBytes_length]
  refine ⟨?_, h1, h2, ?_, ?_⟩
  · intro h
    rw [h, h2] at h1
    omega
  · simp [NetworkInfoTag.toBytes, sampleNetworkInfoTag, TagHeader.toBytes, arrayBytes,
      List.ofFn_succ]
  · simp [NetworkInfoTag.vendorFormBytes, sampleNetworkInfoTag, TagHeader.toBytes, arrayBytes,
      List.ofFn_succ, NintendoOUI, NetworkInfoTag.TagId]

/-- C7, amended: a `NetworkInfoTag` is 54 bytes, its 2-byte header followed directly by the
31-byte network descriptor (offsets 2..32), the 20-byte digest (33..52) and the
application-data size (53); it has no OUI and sub-id members of its own, unlike `DummyTag` and
`EncryptedDataTag`, where the header is followed by the OUI (2..4) and the sub-id (5). -/
theorem NetworkInfoTag_layout (t : NetworkInfoTag) :
    t.toBytes.length = sizeofNetworkInfoTag ∧ sizeofNetworkInfoTag = 54 ∧
    t.toBytes[0]? = some (t.header.tag_id % 256) ∧
    t.toBytes[1]? = some (t.header.length % 256) ∧
    (∀ i : Fin 31, t.toBytes[2 + i.val]? = some (t.network_info i % 256)) ∧
    (∀ i : Fin 20, t.toBytes[33 + i.val]? = some (t.sha_hash i % 256)) ∧
    t.toBytes[53]? = some (t.appdata_size % 256) ∧
    (∀ e : EncryptedDataTag, e.toBytes.length = 6 ∧
      (∀ i : Fin 3, e.toBytes[2 + i.val]? = some (e.oui i % 256)) ∧
      e.toBytes[5]? = some (e.oui_type % 256)) ∧
    (∀ u : DummyTag, u.toBytes.length = 9 ∧
      (∀ i : Fin 3, u.toBytes[2 + i.val]? = some (u.oui i % 256)) ∧
      u.toBytes[5]? = some (u.oui_type % 256) ∧
      (∀ i : Fin 3, u.toBytes[6 + i.val]? = some (u.data i % 256))) := by
  have hh := TagHeader_toBytes_length t.header
  have hn := arrayBytes_length t.network_info
  have hs := arrayBytes_length t.sha_hash
  refine ⟨?_, rfl, ?_, ?_, ?_, ?_, ?_, ?_, ?_⟩
  · simp [NetworkInfoTag.toBytes, hh, hn, hs, sizeofNetworkInfoTag]
  · rfl
  · rfl
  · intro i
    simp only [NetworkInfoTag.toBytes, List.append_assoc]
    rw [getElem?_append_at _ _ 2 _ i.val hh rfl, getElem?_append_inside _ _ _ (by omega),
      arrayBytes_getElem?]
  · intro i
    simp only [NetworkInfoTag.toBytes, List.append_assoc]
    rw [getElem?_append_at _ _ 2 _ (31 + i.val) hh (by omega),
      getElem?_append_at _ _ 31 _ i.val hn rfl, getElem?_append_inside _ _ _ (by omega),
      arrayBytes_getElem?]
  · simp only [NetworkInfoTag.toBytes, List.append_assoc]
    rw [getElem?_append_at _ _ 2 _ 51 hh rfl, getElem?_append_at _ _ 31 _ 20 hn rfl,
      getElem?_append_at _ _ 20 _ 0 hs rfl]
    rfl
  · intro e
    have he := TagHeader_toBytes_length e.header
    have ho := arrayBytes_length e.oui
    refine ⟨?_, ?_, ?_⟩
    · simp [EncryptedDataTag.toBytes, he, ho]
    · intro i
      simp only [EncryptedDataTag.toBytes, List.append_assoc]
      rw [getElem?_append_at _ _ 2 _ i.val he rfl, getElem?_append_inside _ _ _ (by omega),
        arrayBytes_getElem?]
    · simp only [EncryptedDataTag.toBytes, List.append_assoc]
      rw [getElem?_append_at _ _ 2 _ 3 he rfl, getElem?_append_at _ _ 3 _ 0 ho rfl]
      rfl
  · intro u
    have hu := TagHeader_toBytes_length u.header
    have ho := arrayBytes_length u.oui
    have hd := arrayBytes_length u.data
    refine ⟨?_, ?_, ?_, ?_⟩
    · simp [DummyTag.toBytes, hu, ho, hd]
    · intro i
      simp only [DummyTag.toBytes, List.append_assoc]
      rw [getElem?_append_at _ _ 2 _ i.val hu rfl, getElem?_append_inside _ _ _ (by omega),
        arrayBytes_getElem?]
    · simp only [DummyTag.toBytes, List.append_assoc]
      rw [getElem?_append_at _ _ 2 _ 3 hu rfl, getElem?_append_at _ _ 3 _ 0 ho rfl]
      rfl
    · intro i
      simp only [DummyTag.toBytes, List.append_assoc]
      rw [getElem?_append_at _ _ 2 _ (4 + i.val) hu (by omega),
        getElem?_append_at _ _ 3 _ (1 + i.val) ho (by omega),
        getElem?_append_at [u.oui_type % 256] _ 1 _ i.val rfl (by omega),
        arrayBytes_getElem?]

theorem vendor_value_length (subId : NintendoTagId) (payload : List Nat) :
    (arrayBytes NintendoOUI ++ [subId.toU8] ++ payload).length = 4 + payload.length := by
  simp [arrayBytes_length]
  omega

theorem EncodeVendorTag_ok (subId : NintendoTagId) (payload : List Nat)
    (h : payload.length ≤ 251) :
    EncodeVendorTag subId payload
      = .ok { header := { tag_id := 221, length := 4 + payload.length }
              value := arrayBytes NintendoOUI ++ [subId.toU8] ++ payload } := by
  unfold EncodeVendorTag EncodeTag
  rw [vendor_value_length, if_neg (by simp [maxTagLength]; omega)]
  rfl

theorem EncodeVendorTag_error (subId : NintendoTagId) (payload : List Nat)
    (h : 251 < payload.length) :
    EncodeVendorTag subId payload = .error .PayloadTooLarge := by
  unfold EncodeVendorTag EncodeTag
  rw [vendor_value_length, if_pos (by simp [maxTagLength]; omega)]

/-- C4: encoding a vendor tag, laid out as an `EncryptedDataTag` followed by the payload,
succeeds exactly when the payload has at most 251 bytes; the tag length is then 4 more than the
payload length, 255 for 251 bytes, and a longer payload, one of 252 bytes for instance, fails
with `PayloadTooLarge` because its length plus 4 does not fit the one-byte length member. -/
theorem EncodeVendorTag_payload_ceiling (subId : NintendoTagId) (payload : List Nat) :
    ((∃ t, EncodeVendorTag subId payload = .ok t) ↔ payload.length ≤ 251) ∧
    (∀ t, EncodeVendorTag subId payload = .ok t →
      t.header.length = 4 + payload.length ∧ t.header.length < 2 ^ 8 ∧
      t.toBytes = EncryptedDataTag.toBytes
          { header := { tag_id := TagId.VendorSpecific.toU8, length := 4 + payload.length }
            oui := NintendoOUI
            oui_type := subId.toU8 }
        ++ payload.map (· % 256)) ∧
    (payload.length = 251 →
      ∃ t, EncodeVendorTag subId payload = .ok t ∧ t.header.length = 255) ∧
    (251 < payload.length →
      EncodeVendorTag subId payload = .error .PayloadTooLarge ∧
      ¬ 4 + payload.length < 2 ^ 8) ∧
    (payload.length = 252 → EncodeVendorTag subId payload = .error .PayloadTooLarge) ∧
    (∃ t, EncodeVendorTag subId (List.replicate 251 0) = .ok t ∧ t.header.length = 255) ∧
    EncodeVendorTag subId (List.replicate 252 0) = .error .PayloadTooLarge := by
  refine ⟨⟨?_, ?_⟩, ?_, ?_, ?_, ?_, ?_, ?_⟩
  · rintro ⟨t, ht⟩
    by_contra hlt
    rw [EncodeVendorTag_error subId payload (by omega)] at ht
    cases ht
  · intro h
    exact ⟨_, EncodeVendorTag_ok subId payload h⟩
  · intro t ht
    by_cases hle : payload.length ≤ 251
    · rw [EncodeVendorTag_ok subId payload hle] at ht
      injection ht with ht
      subst ht
      refine ⟨rfl, ?_, ?_⟩
      · show 4 + payload.length < 2 ^ 8
        omega
      · have hsub : subId.toU8 % 256 = subId.toU8 := by
          cases subId <;> rfl
        simp [Tag.toBytes, EncryptedDataTag.toBytes, TagHeader.toBytes, arrayBytes,
          TagId.toU8, hsub]
    · rw [EncodeVendorTag_error subId payload (by omega)] at ht
      cases ht
  · intro h
    refine ⟨_, EncodeVendorTag_ok subId payload (by omega), ?_⟩
    show 4 + payload.length = 255
    omega
  · intro h
    exact ⟨EncodeVendorTag_error subId payload h, by omega⟩
  · intro h
    exact EncodeVendorTag_error subId payload (by omega)
  · refine ⟨_, EncodeVendorTag_ok subId _ (le_of_eq (List.length_replicate 251 0)), ?_⟩
    show 4 + (List.replicate 251 0).length = 255
    rw [List.length_replicate]
  · refine EncodeVendorTag_error subId _ ?_
    rw [List.length_replicate]
    omega

theorem filter_length_add {α : Type} (f : α → Bool) (l : List α) :
    (l.filter f).length + (l.filter (fun a => !f a)).length = l.length := by
  induction l with
  | nil => rfl
  | cons a l ih =>
    simp only [List.filter_cons]
    cases hf : f a <;> simp <;> omega

theorem GetReceivedPackets_fst (type : WifiPacket.PacketType) (sender : MacAddress)
    (queue : List WifiPacket) :
    (GetReceivedPackets type sender queue).1 = queue.filter (WifiPacket.isFrom type sender) := by
  induction queue with
  | nil => rfl
  | cons p queue ih =>
    simp only [GetReceivedPackets, List.filter_cons]
    split <;> simp [ih]

theorem GetReceivedPackets_snd (type : WifiPacket.PacketType) (sender : MacAddress)
    (queue : List WifiPacket) :
    (GetReceivedPackets type sender queue).2
      = queue.filter (fun p => !p.isFrom type sender) := by
  induction queue with
  | nil => rfl
  | cons p queue ih =>
    simp only [GetReceivedPackets, List.filter_cons]
    split <;> simp [ih, *]

/-- C9: `GetReceivedPackets(type, sender)` returns, in capture order, exactly the queued
packets whose type is the requested type and whose transmitter address is the sender, takes
them off the queue and leaves every other packet queued, in order; calling it again at once
with the same type and sender returns nothing and changes nothing. -/
theorem GetReceivedPackets_drains (type : WifiPacket.PacketType) (sender : MacAddress)
    (queue : List WifiPacket) :
    (GetReceivedPackets type sender queue).1
      = queue.filter (fun p => decide (p.type = type ∧ p.transmitter_address = sender)) ∧
    (GetReceivedPackets type sender queue).2
      = queue.filter (fun p => decide ¬ (p.type = type ∧ p.transmitter_address = sender)) ∧
    (GetReceivedPackets type sender queue).1.Sublist queue ∧
    (GetReceivedPackets type sender queue).2.Sublist queue ∧
    (∀ p, p ∈ queue ↔
      p ∈ (GetReceivedPackets type sender queue).1 ∨
        p ∈ (GetReceivedPackets type sender queue).2) ∧
    (GetReceivedPackets type sender queue).1.length
      + (GetReceivedPackets type sender queue).2.length = queue.length ∧
    (GetReceivedPackets type sender (GetReceivedPackets type sender queue).2).1 = [] ∧
    (GetReceivedPackets type sender (GetReceivedPackets type sender queue).2).2
      = (GetReceivedPackets type sender queue).2 := by
  have hf : (fun p : WifiPacket => decide (p.type = type ∧ p.transmitter_address = sender))
      = WifiPacket.isFrom type sender := by
    funext p
    simp [WifiPacket.isFrom, Bool.decide_and]
  have hg : (fun p : WifiPacket => decide ¬ (p.type = type ∧ p.transmitter_address = sender))
      = (fun p => !p.isFrom type sender) := by
    funext p
    simp [WifiPacket.isFrom, Bool.decide_and]
  rw [hf, hg]
  have h1 := GetReceivedPackets_fst type sender queue
  have h2 := GetReceivedPackets_snd type sender queue
  refine ⟨h1, h2, ?_, ?_, ?_, ?_, ?_, ?_⟩
  · rw [h1]; exact List.filter_sublist queue
  · rw [h2]; exact List.filter_sublist queue
  · intro p
    rw [h1, h2, List.mem_filter, List.mem_filter]
    cases hp : p.isFrom type sender <;> simp
  · rw [h1, h2]
    exact filter_length_add _ queue
  · rw [GetReceivedPackets_fst, h2, List.filter_filter]
    simp
  · rw [GetReceivedPackets_snd, h2, List.filter_filter]
    simp

/-! ## Roster cipher -/

end Service.NWM
